import Mathlib

/-!
Verification of the Rayforge-Sync save-synchronization engine
(src/Rayforge-Sync.py) against its natural-language specification.

The engine is shallowly embedded:

* JSON values (as produced by Python's json.load) are the inductive `Json`;
  numeric leaves are modelled as integers (no claim involves numbers).
* The manifest file `games.json` holds a `FileContent`: either text that is
  not valid JSON (`notJson`) or a parsed JSON value (`json`).  json.dump
  followed by json.load round-trips on this representation.
* Directory trees are `FsTree`: a file with string content, or a directory
  holding an association list of named children.  Real directories have
  distinct child names; `keysNodup` states that where theorems need it.
* Server-side state (`ServerState`) holds the content of games.json, the
  content of the temporary file games.json.tmp written by the atomic-save
  path (pathlib's with_suffix keeps it in the same directory as games.json),
  and per-game storage directories `<server_root>/<game_id>/save_data` and
  `backup` keyed by game id.
* Fallible filesystem steps whose failure the spec talks about (the manifest
  temp-write and the rename, the local backup copy) take explicit Boolean
  fault-injection parameters; `false` means that step raises an exception,
  which the source catches at the operation boundary.
-/

/-- JSON values as parsed by Python's json module.  Object fields are an
association list in insertion order (CPython dicts preserve it); duplicate
keys do not arise in the manifests considered here. -/
inductive Json where
  | null
  | bool (b : Bool)
  | num (n : Int)
  | str (s : String)
  | arr (elems : List Json)
  | obj (fields : List (String × Json))

/-- Content of a file that is read with json.load: either text that fails to
parse (raising json.JSONDecodeError) or a JSON value. -/
inductive FileContent where
  | notJson (raw : String)
  | json (v : Json)

/-- First-match association-list lookup, the model of Python dict access on
parsed JSON objects. -/
def assocLookup {α : Type} : List (String × α) → String → Option α
  | [], _ => none
  | (k', v) :: rest, k => if k' == k then some v else assocLookup rest k

/-- Replace the value stored at a key, keeping its position (Python dict
assignment on an existing key); appends if the key is absent. -/
def assocSet {α : Type} : List (String × α) → String → α → List (String × α)
  | [], k, v => [(k, v)]
  | (k', v') :: rest, k, v =>
    if k' == k then (k, v) :: rest else (k', v') :: assocSet rest k v

/-- Python truthiness of a JSON value (`if not game_id` / `if not game_name`
in load_games_from_json, line 382). -/
def jTruthy : Json → Bool
  | .null => false
  | .bool b => b
  | .num n => !(n == 0)
  | .str s => !(s == "")
  | .arr l => !l.isEmpty
  | .obj f => !f.isEmpty

/-- Truthiness of `dict.get(key)`: a missing key gives None, which is falsy. -/
def truthy : Option Json → Bool
  | none => false
  | some j => jTruthy j

/-- `game.get(key)` for a manifest entry: dictionary lookup on an object,
None (here `none`) on anything else. -/
def jGet (g : Json) (k : String) : Option Json :=
  match g with
  | .obj fields => assocLookup fields k
  | _ => none

/-- The per-entry filter of load_games_from_json (lines 373-383): non-dict
entries are skipped, and entries whose id or name is missing or falsy are
skipped; a surviving entry is kept whole. -/
def keepGame (g : Json) : Option Json :=
  match g with
  | .obj _ => if truthy (jGet g "id") && truthy (jGet g "name") then some g else none
  | _ => none

/-- Error kinds of loading the manifest, one per handler branch of
load_games_from_json (lines 350-371): json.JSONDecodeError ("corrupted"),
TypeError from the structure checks ("invalid format"), and the generic
handler, reached in this model exactly when the file is missing. -/
inductive LoadErr where
  | notFound
  | corruptManifest
  | invalidSchema
deriving DecidableEq, Repr

/-- load_games_from_json (lines 347-402): read games.json, require a JSON
object root whose "games" field is a list, and keep the well-formed entries
in order. -/
def loadGamesFromJson (manifest : Option FileContent) : Except LoadErr (List Json) :=
  match manifest with
  | none => .error .notFound
  | some (.notJson _) => .error .corruptManifest
  | some (.json root) =>
    match root with
    | .obj fields =>
      match assocLookup fields "games" with
      | some (.arr l) => .ok (l.filterMap keepGame)
      | some _ => .error .invalidSchema
      | none => .error .invalidSchema
    | _ => .error .invalidSchema

/-- Python str.lower, modelled per character (all names in the claims are
ASCII, where the two coincide). -/
def strLower (s : String) : String := String.mk (s.data.map Char.toLower)

/-- One summand of the duplicate-name check `g['name'].lower()` in
add_new_game (line 518): indexing anything but a dict raises TypeError, a
missing 'name' key raises KeyError, and `.lower()` on a non-string raises
AttributeError; all are caught by the generic handler of the enclosing try. -/
def gameNameLower (g : Json) : Except Unit String :=
  match g with
  | .obj fields =>
    match assocLookup fields "name" with
    | some (.str s) => .ok (strLower s)
    | some _ => .error ()
    | none => .error ()
  | _ => .error ()

/-- The list comprehension of line 518 over the games entries: left to right,
aborted by the first exception. -/
def gameNamesLower : List Json → Except Unit (List String)
  | [] => .ok []
  | g :: rest =>
    match gameNameLower g with
    | .error _ => .error ()
    | .ok s =>
      match gameNamesLower rest with
      | .error _ => .error ()
      | .ok ss => .ok (s :: ss)

/-- Python iteration over the value of the "games" key inside the list
comprehension: lists yield their elements, strings their one-character
substrings, dicts their keys; other values raise TypeError. -/
def iterElems : Json → Except Unit (List Json)
  | .arr l => .ok l
  | .str s => .ok (s.data.map (fun c => .str (String.mk [c])))
  | .obj fields => .ok (fields.map (fun q => Json.str q.1))
  | _ => .error ()

/-- `existing_names = [g['name'].lower() for g in server_data.get("games", [])]`
(line 518): `.get` on a non-dict root raises AttributeError; a missing
"games" key defaults to the empty list. -/
def existingNames (root : Json) : Except Unit (List String) :=
  match root with
  | .obj fields =>
    match assocLookup fields "games" with
    | none => .ok []
    | some gs =>
      match iterElems gs with
      | .error _ => .error ()
      | .ok elems => gameNamesLower elems
  | _ => .error ()

/-- `new_game_data = {"id": game_id, "name": game_name}` (line 498). -/
def newGameRecord (gameId gameName : String) : Json :=
  .obj [("id", .str gameId), ("name", .str gameName)]

/-- `server_data["games"].append(new_game_data)` (line 526): requires the
root to be a dict whose "games" key holds a list (otherwise KeyError or
AttributeError, caught by the generic handler); mutates that list in place,
so the key keeps its position. -/
def appendGame (root : Json) (gameId gameName : String) : Option Json :=
  match root with
  | .obj fields =>
    match assocLookup fields "games" with
    | some (.arr l) =>
      some (.obj (assocSet fields "games" (.arr (l ++ [newGameRecord gameId gameName]))))
    | some _ => none
    | none => none
  | _ => none

/-- A directory tree: a file with byte content, or a directory with named
children in creation order. -/
inductive FsTree where
  | file (content : String)
  | dir (entries : List (String × FsTree))

/-- The two server-side directories of one game,
`<server_root>/<game_id>/save_data` and `<server_root>/<game_id>/backup`
(lines 504-505).  `backup` maps timestamp names to the snapshot stored
under them. -/
structure GameStorage where
  saveData : FsTree
  backup : List (String × FsTree)

/-- Server-side filesystem state: games.json, the temporary file
games.json.tmp used by the atomic manifest write (line 511:
`with_suffix(".json.tmp")` stays in the server root), and the per-game
directories keyed by game id. -/
structure ServerState where
  manifest : Option FileContent
  manifestTmp : Option FileContent
  storage : List (String × GameStorage)

/-- `mkdir(parents=True, exist_ok=True)` for save_data and backup
(lines 503-505): creates the game's directories if absent, leaves existing
ones alone. -/
def storageMkdirs (s : List (String × GameStorage)) (gameId : String) :
    List (String × GameStorage) :=
  match assocLookup s gameId with
  | some _ => s
  | none => s ++ [(gameId, { saveData := .dir [], backup := [] })]

/-- `shutil.rmtree(game_server_dir)` rollback (lines 522, 539): removes the
whole `<server_root>/<game_id>` directory. -/
def rollbackDirs (st : ServerState) (gameId : String) : ServerState :=
  { st with storage := st.storage.filter (fun p => !(p.1 == gameId)) }

/-- Outcomes of add_new_game's server-side work: success, the duplicate-name
warning (line 520), or any exception caught by one of the critical-error
handlers (lines 506, 535). -/
inductive RegisterResult where
  | ok
  | duplicateName
  | manifestError
deriving DecidableEq, Repr

/-- The server-side core of add_new_game (lines 494-544), called `register`
by the spec.  `gameId` stands for the freshly generated uuid4 string.
`writeOk` injects a fault into the temp-file write (lines 529-530) and
`renameOk` into the atomic rename (line 533); on a write fault the
temporary file is left partially written, on a rename fault it is left
complete, and in every failure path the just-created game directories are
rolled back and games.json itself is never touched. -/
def registerGame (st : ServerState) (gameId gameName : String)
    (writeOk renameOk : Bool) : ServerState × RegisterResult :=
  let st1 : ServerState := { st with storage := storageMkdirs st.storage gameId }
  match st1.manifest with
  | none => (rollbackDirs st1 gameId, .manifestError)
  | some (.notJson _) => (rollbackDirs st1 gameId, .manifestError)
  | some (.json root) =>
    match existingNames root with
    | .error _ => (rollbackDirs st1 gameId, .manifestError)
    | .ok names =>
      if names.contains (strLower gameName) then
        (rollbackDirs st1 gameId, .duplicateName)
      else
        match appendGame root gameId gameName with
        | none => (rollbackDirs st1 gameId, .manifestError)
        | some newRoot =>
          if writeOk then
            let st2 : ServerState := { st1 with manifestTmp := some (.json newRoot) }
            if renameOk then
              ({ st2 with manifest := some (.json newRoot), manifestTmp := none }, .ok)
            else
              (rollbackDirs st2 gameId, .manifestError)
          else
            (rollbackDirs { st1 with manifestTmp := some (.notJson "") } gameId,
             .manifestError)

/-- All of add_new_game (lines 485-544): the server-side registration
followed by the "--- 3. Save Local Path ---" section (line 544), which
contains no statements, so the local path map of QSettings is returned
exactly as it was. -/
def addNewGame (st : ServerState) (paths : List (String × String))
    (gameId gameName : String) (writeOk renameOk : Bool) :
    (ServerState × RegisterResult) × List (String × String) :=
  (registerGame st gameId gameName writeOk renameOk, paths)

/-- The games list currently stored in games.json, if it is a JSON object
with a list-valued "games" field. -/
def manifestGamesList (st : ServerState) : Option (List Json) :=
  match st.manifest with
  | some (.json (.obj fields)) =>
    match assocLookup fields "games" with
    | some (.arr l) => some l
    | _ => none
  | _ => none

/-- Number of catalog entries carrying a given name, compared
case-insensitively as the duplicate check does. -/
def countNameCI (gs : List Json) (nm : String) : Nat :=
  (gs.filter (fun g =>
    match jGet g "name" with
    | some (.str s) => strLower s == strLower nm
    | _ => false)).length

/-- Distinctness of the names of a directory's children; holds of every real
directory and is assumed where theorems copy a tree. -/
def keysNodup : List (String × FsTree) → Bool
  | [] => true
  | (n, _) :: rest => rest.all (fun q => !(q.1 == n)) && keysNodup rest

/-- `shutil.copytree(src, dst, dirs_exist_ok=True)` restricted to directory
arguments, merging the children of `src` into `dst`: fresh entries are
copied whole, a file overwrites a file (copy2), directories merge
recursively, and a file/directory clash raises (`none`).  A non-directory
argument (copytree from or onto a file) also raises. -/
def copyEntries : List (String × FsTree) → List (String × FsTree) →
    Option (List (String × FsTree))
  | dst, [] => some dst
  | dst, (n, FsTree.file c) :: rest =>
    match assocLookup dst n with
    | none => copyEntries (dst ++ [(n, FsTree.file c)]) rest
    | some (FsTree.file _) => copyEntries (assocSet dst n (FsTree.file c)) rest
    | some (FsTree.dir _) => none
  | dst, (n, FsTree.dir ses) :: rest =>
    match assocLookup dst n with
    | none => copyEntries (dst ++ [(n, FsTree.dir ses)]) rest
    | some (FsTree.dir des) =>
      match copyEntries des ses with
      | some merged => copyEntries (assocSet dst n (FsTree.dir merged)) rest
      | none => none
    | some (FsTree.file _) => none
  termination_by _ src => sizeOf src

/-- Whole-tree form of the copy: both endpoints must be directories. -/
def copyInto (dst src : FsTree) : Option FsTree :=
  match dst, src with
  | .dir d, .dir s => Option.map FsTree.dir (copyEntries d s)
  | _, _ => none

/-- `shutil.move(save_data, backup/<timestamp>)` (line 617): with no entry at
the timestamp the directory is renamed there; onto an existing directory it
is moved inside it under its own name "save_data"; onto an existing file the
move raises. -/
def moveTree (backup : List (String × FsTree)) (ts : String) (t : FsTree) :
    Option (List (String × FsTree)) :=
  match assocLookup backup ts with
  | none => some (backup ++ [(ts, t)])
  | some (.dir es) => some (assocSet backup ts (.dir (es ++ [("save_data", t)])))
  | some (.file _) => none

/-- `backup_dest.mkdir(parents=True, exist_ok=True)` (line 663) at the
timestamp entry of `<local_backup_root>/<game_id>/`: creates an empty
directory if absent, keeps an existing directory, raises on an existing
file. -/
def mkdirBackup (lb : List (String × FsTree)) (ts : String) :
    Option (List (String × FsTree)) :=
  match assocLookup lb ts with
  | none => some (lb ++ [(ts, FsTree.dir [])])
  | some (.dir _) => some lb
  | some (.file _) => none

/-- The filesystem slice a sync operation for one game touches: games.json
(read by neither operation, carried to state frame conditions), the game's
server-side save_data and backup directories, the user's local save
directory, and the `<local_backup_root>/<game_id>/` directory of timestamped
local backups.  Registration guarantees save_data and backup exist. -/
structure SyncState where
  manifest : Option FileContent
  serverSave : FsTree
  serverBackup : List (String × FsTree)
  localSave : FsTree
  localBackupGame : List (String × FsTree)

/-- Outcome of a sync operation: success, the "Local path not set." warning
(lines 595-597, 644-645), the user declining the overwrite prompt, or any
exception caught by the Upload/Download Failed handler. -/
inductive SyncResult where
  | ok
  | unconfigured
  | cancelled
  | failed
deriving DecidableEq, Repr

/-- upload_save (lines 581-628): require a configured, non-empty local path
(Python truthiness, so the empty string also fails), require confirmation,
move a non-empty server save_data to backup/<timestamp> and recreate it
empty, then copytree the local directory onto it.  `confirm` is the decision
produced by the overwrite-warning dialog. -/
def uploadSave (paths : List (String × String)) (gameId : String)
    (confirm : Bool) (ts : String) (st : SyncState) : SyncState × SyncResult :=
  match assocLookup paths gameId with
  | none => (st, .unconfigured)
  | some p =>
    if p == "" then (st, .unconfigured)
    else if confirm = false then (st, .cancelled)
    else
      match st.serverSave with
      | .file _ => (st, .failed)
      | .dir entries =>
        if entries.isEmpty then
          match copyInto (.dir entries) st.localSave with
          | none => (st, .failed)
          | some newSave => ({ st with serverSave := newSave }, .ok)
        else
          match moveTree st.serverBackup ts (.dir entries) with
          | none => (st, .failed)
          | some backup2 =>
            match copyInto (.dir []) st.localSave with
            | none => ({ st with serverBackup := backup2, serverSave := .dir [] }, .failed)
            | some newSave =>
              ({ st with serverBackup := backup2, serverSave := newSave }, .ok)

/-- download_save (lines 630-677): require a configured local path and
confirmation, unconditionally mkdir `<local_backup_root>/<game_id>/<ts>/`,
then for a non-empty local directory copytree it into that backup directory
and only afterwards clear the local directory, and finally copytree the
server save_data onto the local directory.  `backupCopyOk = false` injects a
fault into the backup copytree (line 668); the exception is caught before
the clearing step runs, and the partially copied backup content is not
modelled (the local directory is only read by it). -/
def downloadSave (paths : List (String × String)) (gameId : String)
    (confirm : Bool) (ts : String) (backupCopyOk : Bool) (st : SyncState) :
    SyncState × SyncResult :=
  match assocLookup paths gameId with
  | none => (st, .unconfigured)
  | some p =>
    if p == "" then (st, .unconfigured)
    else if confirm = false then (st, .cancelled)
    else
      match mkdirBackup st.localBackupGame ts with
      | none => (st, .failed)
      | some lb1 =>
        let st1 : SyncState := { st with localBackupGame := lb1 }
        match st1.localSave with
        | .file _ => (st1, .failed)
        | .dir les =>
          if les.isEmpty then
            match copyInto (.dir les) st1.serverSave with
            | none => (st1, .failed)
            | some newLocal => ({ st1 with localSave := newLocal }, .ok)
          else
            if backupCopyOk = false then (st1, .failed)
            else
              match assocLookup lb1 ts with
              | none => (st1, .failed)
              | some dst =>
                match copyInto dst (.dir les) with
                | none => (st1, .failed)
                | some dst2 =>
                  let st2 : SyncState :=
                    { st1 with localBackupGame := assocSet lb1 ts dst2,
                               localSave := .dir [] }
                  match copyInto (.dir []) st2.serverSave with
                  | none => (st2, .failed)
                  | some newLocal => ({ st2 with localSave := newLocal }, .ok)

/-! ## Helper lemmas -/

theorem assocLookup_nil {α : Type} (k : String) :
    assocLookup ([] : List (String × α)) k = none := rfl

theorem assocLookup_append {α : Type} (m1 m2 : List (String × α)) (k : String) :
    assocLookup (m1 ++ m2) k =
      match assocLookup m1 k with
      | some v => some v
      | none => assocLookup m2 k := by
  induction m1 with
  | nil => simp [assocLookup]
  | cons hd tl ih =>
    obtain ⟨k', v⟩ := hd
    by_cases h : (k' == k) = true
    · simp [assocLookup, h]
    · simp only [List.cons_append, assocLookup, Bool.not_eq_true] at *
      rw [h]
      simpa using ih

theorem assocLookup_append_of_none {α : Type} {m1 : List (String × α)}
    (m2 : List (String × α)) {k : String} (h : assocLookup m1 k = none) :
    assocLookup (m1 ++ m2) k = assocLookup m2 k := by
  rw [assocLookup_append, h]

theorem assocLookup_singleton_self {α : Type} (k : String) (v : α) :
    assocLookup [(k, v)] k = some v := by
  simp [assocLookup]

theorem assocLookup_assocSet_self {α : Type} (m : List (String × α))
    (k : String) (v : α) : assocLookup (assocSet m k v) k = some v := by
  induction m with
  | nil => simp [assocSet, assocLookup]
  | cons hd tl ih =>
    obtain ⟨k', v'⟩ := hd
    by_cases h : (k' == k) = true
    · simp [assocSet, h, assocLookup]
    · simp only [Bool.not_eq_true] at h
      simp [assocSet, h, assocLookup, ih]

theorem assocSet_append_fresh {α : Type} {m : List (String × α)} {k : String}
    (x y : α) (h : assocLookup m k = none) :
    assocSet (m ++ [(k, x)]) k y = m ++ [(k, y)] := by
  induction m with
  | nil => simp [assocSet]
  | cons hd tl ih =>
    obtain ⟨k', v'⟩ := hd
    simp only [assocLookup] at h
    by_cases hk : (k' == k) = true
    · simp [hk] at h
    · simp only [Bool.not_eq_true] at hk
      simp only [hk, if_neg] at h
      simp [assocSet, hk, ih h]

theorem assocLookup_filter_ne {α : Type} (m : List (String × α)) (k : String) :
    assocLookup (m.filter (fun p => !(p.1 == k))) k = none := by
  induction m with
  | nil => simp [assocLookup]
  | cons hd tl ih =>
    obtain ⟨k', v⟩ := hd
    by_cases h : (k' == k) = true
    · simp [List.filter, h, ih]
    · simp only [Bool.not_eq_true] at h
      simp [List.filter, h, assocLookup, ih]


theorem keysNodup_cons {n : String} {t : FsTree} {rest : List (String × FsTree)}
    (h : keysNodup ((n, t) :: rest) = true) :
    (∀ q ∈ rest, (q.1 == n) = false) ∧ keysNodup rest = true := by
  simp only [keysNodup, Bool.and_eq_true, List.all_eq_true] at h
  refine ⟨fun q hq => ?_, h.2⟩
  have := h.1 q hq
  simpa using this

theorem copyEntries_fresh (s : List (String × FsTree)) :
    ∀ d : List (String × FsTree),
      (∀ q ∈ s, assocLookup d q.1 = none) → keysNodup s = true →
      copyEntries d s = some (d ++ s) := by
  induction s with
  | nil => intro d _ _; simp [copyEntries]
  | cons hd tl ih =>
    intro d hdisj hnd
    obtain ⟨n, t⟩ := hd
    have hn : assocLookup d n = none := hdisj (n, t) (by simp)
    obtain ⟨hall, htl⟩ := keysNodup_cons hnd
    have hdisj2 : ∀ q ∈ tl, assocLookup (d ++ [(n, t)]) q.1 = none := by
      intro q hq
      rw [assocLookup_append_of_none _ (hdisj q (by simp [hq]))]
      have hne : (n == q.1) = false := by
        have h1 : (q.1 == n) = false := hall q hq
        have h2 : q.1 ≠ n := by
          intro hc
          rw [hc] at h1
          simp at h1
        have h3 : n ≠ q.1 := fun hc => h2 hc.symm
        exact beq_eq_false_iff_ne.mpr h3
      simp [assocLookup, hne]
    have step : copyEntries (d ++ [(n, t)]) tl = some ((d ++ [(n, t)]) ++ tl) :=
      ih (d ++ [(n, t)]) hdisj2 htl
    have harr : (d ++ [(n, t)]) ++ tl = d ++ (n, t) :: tl := by
      simp
    cases t with
    | file c =>
      rw [copyEntries, hn, step, harr]
    | dir ses =>
      rw [copyEntries, hn, step, harr]

/-- Merging a well-formed directory into an empty one yields it unchanged. -/
theorem copyInto_empty_dir {s : List (String × FsTree)} (h : keysNodup s = true) :
    copyInto (.dir []) (.dir s) = some (.dir s) := by
  simp [copyInto, copyEntries_fresh s [] (fun q _ => rfl) h]

/-- registerGame either succeeds, or it has rolled the game directories back
and left games.json untouched. -/
theorem registerGame_cases (st : ServerState) (gameId gameName : String)
    (w r : Bool) :
    ((registerGame st gameId gameName w r).2 = RegisterResult.ok) ∨
    (assocLookup (registerGame st gameId gameName w r).1.storage gameId = none ∧
     (registerGame st gameId gameName w r).1.manifest = st.manifest) := by
  unfold registerGame rollbackDirs
  dsimp only
  repeat' split
  all_goals first
    | exact Or.inl rfl
    | exact Or.inr ⟨assocLookup_filter_ne _ _, rfl⟩

/-- Every failing path of registerGame rolls the game directories back and
leaves games.json untouched. -/
theorem registerGame_error_state (st : ServerState) (gameId gameName : String)
    (w r : Bool) (h : (registerGame st gameId gameName w r).2 ≠ RegisterResult.ok) :
    assocLookup (registerGame st gameId gameName w r).1.storage gameId = none ∧
    (registerGame st gameId gameName w r).1.manifest = st.manifest :=
  (registerGame_cases st gameId gameName w r).resolve_left h

/-- With both fault flags off, registration against a structurally valid
manifest whose names all lower without error and avoid the new name
succeeds: the new record is appended and games.json is atomically replaced,
with the temporary file renamed away. -/
theorem registerGame_success_eq (st : ServerState) (fs : List (String × Json))
    (l : List Json) (names : List String) (gameId gameName : String)
    (hman : st.manifest = some (.json (.obj fs)))
    (hgames : assocLookup fs "games" = some (.arr l))
    (hnames : gameNamesLower l = .ok names)
    (hnc : names.contains (strLower gameName) = false) :
    registerGame st gameId gameName true true =
      ({ manifest := some (.json (.obj (assocSet fs "games"
            (.arr (l ++ [newGameRecord gameId gameName]))))),
         manifestTmp := none,
         storage := storageMkdirs st.storage gameId }, .ok) := by
  have hmem : strLower gameName ∉ names := by simpa using hnc
  obtain ⟨m, mt, stg⟩ := st
  simp only at hman
  subst hman
  unfold registerGame
  simp [existingNames, hgames, iterElems, hnames, hmem, appendGame]

/-- With a rename fault injected, registration never reports success. -/
theorem registerGame_rename_fault_not_ok (st : ServerState)
    (gameId gameName : String) (w : Bool) :
    (registerGame st gameId gameName w false).2 ≠ RegisterResult.ok := by
  unfold registerGame
  dsimp only
  repeat' split
  all_goals simp_all

/-- A successful registration against a structurally valid manifest implies
the duplicate check computed and passed, and pins down the new manifest. -/
theorem registerGame_ok_inv (st : ServerState) (fs : List (String × Json))
    (l : List Json) (gameId gameName : String) (w r : Bool)
    (hman : st.manifest = some (.json (.obj fs)))
    (hgames : assocLookup fs "games" = some (.arr l))
    (h : (registerGame st gameId gameName w r).2 = RegisterResult.ok) :
    ∃ names, gameNamesLower l = Except.ok names ∧
      names.contains (strLower gameName) = false ∧
      (registerGame st gameId gameName w r).1.manifest =
        some (.json (.obj (assocSet fs "games"
          (.arr (l ++ [newGameRecord gameId gameName]))))) := by
  obtain ⟨m, mt, stg⟩ := st
  simp only at hman
  subst hman
  cases hN : gameNamesLower l with
  | error e =>
    exfalso
    unfold registerGame at h
    simp [existingNames, hgames, iterElems, hN] at h
  | ok names =>
    cases hc : names.contains (strLower gameName) with
    | true =>
      have hmem : strLower gameName ∈ names := by simpa using hc
      exfalso
      unfold registerGame at h
      simp [existingNames, hgames, iterElems, hN, hmem] at h
    | false =>
      have hmem : strLower gameName ∉ names := by simpa using hc
      cases w with
      | false =>
        exfalso
        unfold registerGame at h
        simp [existingNames, hgames, iterElems, hN, hmem, appendGame] at h
      | true =>
        cases r with
        | false =>
          exfalso
          unfold registerGame at h
          simp [existingNames, hgames, iterElems, hN, hmem, appendGame] at h
        | true =>
          refine ⟨names, rfl, hc, ?_⟩
          unfold registerGame
          simp [existingNames, hgames, iterElems, hN, hmem, appendGame]

theorem gameNamesLower_append {l1 l2 : List Json} {n1 n2 : List String}
    (h1 : gameNamesLower l1 = .ok n1) (h2 : gameNamesLower l2 = .ok n2) :
    gameNamesLower (l1 ++ l2) = .ok (n1 ++ n2) := by
  induction l1 generalizing n1 with
  | nil =>
    simp only [gameNamesLower] at h1
    cases h1
    simpa using h2
  | cons g tl ih =>
    simp only [gameNamesLower] at h1 ⊢
    cases hg : gameNameLower g with
    | error e => rw [hg] at h1; cases h1
    | ok s =>
      rw [hg] at h1
      cases ht : gameNamesLower tl with
      | error e => rw [ht] at h1; cases h1
      | ok ss =>
        rw [ht] at h1
        cases h1
        simp only [List.cons_append, List.append_eq]
        rw [ih ht]

theorem gameNamesLower_error_of_mem {l : List Json} {g : Json}
    (hg : g ∈ l) (he : gameNameLower g = .error ()) :
    gameNamesLower l = .error () := by
  induction l with
  | nil => cases hg
  | cons hd tl ih =>
    rcases List.mem_cons.mp hg with h | h
    · subst h
      simp [gameNamesLower, he]
    · simp only [gameNamesLower]
      cases hhd : gameNameLower hd with
      | error e => rfl
      | ok s => rw [ih h]

theorem strLower_mem_names {l : List Json} {ns : List String} {g : Json} {s : String}
    (h : gameNamesLower l = .ok ns) (hg : g ∈ l)
    (hname : jGet g "name" = some (.str s)) : strLower s ∈ ns := by
  induction l generalizing ns with
  | nil => cases hg
  | cons hd tl ih =>
    simp only [gameNamesLower] at h
    cases hhd : gameNameLower hd with
    | error e => rw [hhd] at h; cases h
    | ok x =>
      rw [hhd] at h
      cases ht : gameNamesLower tl with
      | error e => rw [ht] at h; cases h
      | ok xs =>
        rw [ht] at h
        cases h
        rcases List.mem_cons.mp hg with hh | hh
        · subst hh
          cases g with
          | obj fields =>
            simp only [jGet] at hname
            simp only [gameNameLower, hname] at hhd
            cases hhd
            exact List.mem_cons_self _ _
          | null => simp [jGet] at hname
          | bool b => simp [jGet] at hname
          | num n => simp [jGet] at hname
          | str s2 => simp [jGet] at hname
          | arr l2 => simp [jGet] at hname
        · exact List.mem_cons_of_mem _ (ih ht hh)

theorem countNameCI_append (gs1 gs2 : List Json) (nm : String) :
    countNameCI (gs1 ++ gs2) nm = countNameCI gs1 nm + countNameCI gs2 nm := by
  simp [countNameCI]

theorem countNameCI_zero {l : List Json} {ns : List String} {nm : String}
    (h : gameNamesLower l = .ok ns) (hnc : ns.contains (strLower nm) = false) :
    countNameCI l nm = 0 := by
  induction l generalizing ns with
  | nil => rfl
  | cons g tl ih =>
    simp only [gameNamesLower] at h
    cases hg : gameNameLower g with
    | error e => rw [hg] at h; cases h
    | ok x =>
      rw [hg] at h
      cases ht : gameNamesLower tl with
      | error e => rw [ht] at h; cases h
      | ok xs =>
        rw [ht] at h
        cases h
        have hmem : strLower nm ∉ x :: xs := by simpa using hnc
        have hx : x ≠ strLower nm := fun he => hmem (he ▸ List.mem_cons_self x xs)
        have hxs : xs.contains (strLower nm) = false := by
          simp only [List.mem_cons, not_or] at hmem
          simpa using hmem.2
        have htail : countNameCI tl nm = 0 := ih ht hxs
        have hhead :
            (match jGet g "name" with
              | some (.str s) => strLower s == strLower nm
              | _ => false) = false := by
          cases g with
          | obj fields =>
            simp only [gameNameLower] at hg
            cases hf : assocLookup fields "name" with
            | none => rw [hf] at hg; cases hg
            | some v =>
              rw [hf] at hg
              cases v with
              | str s =>
                cases hg
                simp only [jGet, hf]
                exact beq_eq_false_iff_ne.mpr hx
              | null => cases hg
              | bool b => cases hg
              | num n2 => cases hg
              | arr l2 => cases hg
              | obj f2 => cases hg
          | null => cases hg
          | bool b => cases hg
          | num n2 => cases hg
          | str s2 => cases hg
          | arr l2 => cases hg
        simp only [countNameCI, List.filter]
        rw [hhead]
        exact htail

theorem filterMap_keepGame_id {l : List Json}
    (h : ∀ g ∈ l, keepGame g = some g) : l.filterMap keepGame = l := by
  induction l with
  | nil => rfl
  | cons g tl ih =>
    rw [List.filterMap_cons, h g (List.mem_cons_self g tl),
        ih (fun x hx => h x (List.mem_cons_of_mem g hx))]

theorem keepGame_newGameRecord {gameId gameName : String}
    (hid : (gameId == "") = false) (hnm : (gameName == "") = false) :
    keepGame (newGameRecord gameId gameName) = some (newGameRecord gameId gameName) := by
  simp [keepGame, newGameRecord, jGet, assocLookup, truthy, jTruthy, hid, hnm]

/-- The root is a JSON object. -/
def jIsObj : Json → Bool
  | .obj _ => true
  | _ => false

/-- The value is a JSON list. -/
def jIsArr : Json → Bool
  | .arr _ => true
  | _ => false

/-- Two catalog entries carry the same id value. -/
def sharesId (a b : Json) : Prop :=
  ∃ v, jGet a "id" = some v ∧ jGet b "id" = some v

/-- Two catalog entries carry string names equal case-insensitively. -/
def sharesNameCI (a b : Json) : Prop :=
  ∃ sa sb, jGet a "name" = some (.str sa) ∧ jGet b "name" = some (.str sb) ∧
    strLower sa = strLower sb

/-- The catalog invariant of the spec: no two records share an id, and no
two records share a name under case-insensitive comparison. -/
def catalogInvariant (gs : List Json) : Prop :=
  gs.Pairwise (fun a b => ¬ sharesId a b ∧ ¬ sharesNameCI a b)

theorem uploadSave_unconfigured {paths : List (String × String)} {gameId : String}
    (confirm : Bool) (ts : String) (st : SyncState)
    (h : assocLookup paths gameId = none) :
    uploadSave paths gameId confirm ts st = (st, .unconfigured) := by
  simp [uploadSave, h]

theorem downloadSave_unconfigured {paths : List (String × String)} {gameId : String}
    (confirm : Bool) (ts : String) (b : Bool) (st : SyncState)
    (h : assocLookup paths gameId = none) :
    downloadSave paths gameId confirm ts b st = (st, .unconfigured) := by
  simp [downloadSave, h]

/-! ## Claim theorems -/

/-- Claim C8: for a game in the catalog but absent from the Local Path Map,
upload_save and download_save stop at the `if not local_path_str` guard
(lines 595-597, 644-645) with the "Local path not set." error, returning the
server-side state (games.json, save_data, backup) and the local filesystem
exactly as they were. -/
theorem c8_unconfigured_untouched (paths : List (String × String))
    (gameId : String) (confirm : Bool) (ts : String) (b : Bool) (st : SyncState)
    (h : assocLookup paths gameId = none) :
    uploadSave paths gameId confirm ts st = (st, .unconfigured) ∧
    downloadSave paths gameId confirm ts b st = (st, .unconfigured) :=
  ⟨uploadSave_unconfigured confirm ts st h, downloadSave_unconfigured confirm ts b st h⟩

theorem c8_witness :
    uploadSave [] "g1" true "2024-01-01_00-00-00"
        { manifest := none, serverSave := .dir [], serverBackup := [],
          localSave := .dir [], localBackupGame := [] } =
      ({ manifest := none, serverSave := .dir [], serverBackup := [],
         localSave := .dir [], localBackupGame := [] }, .unconfigured) ∧
    downloadSave [] "g1" true "2024-01-01_00-00-00" true
        { manifest := none, serverSave := .dir [], serverBackup := [],
          localSave := .dir [], localBackupGame := [] } =
      ({ manifest := none, serverSave := .dir [], serverBackup := [],
         localSave := .dir [], localBackupGame := [] }, .unconfigured) :=
  c8_unconfigured_untouched [] "g1" true "2024-01-01_00-00-00" true _ rfl

/-- Claim C10 (implicit): add_new_game's "--- 3. Save Local Path ---"
section (line 544) contains no code, so after registration — successful or
not — the Local Path Map is exactly the one passed in, the new game id is
not configured (its uuid4 id cannot be a key of the map), and an
immediately following upload or download for it fails with the
"Local path not set." error. -/
theorem c10_local_path_map_unchanged (st : ServerState)
    (paths : List (String × String)) (gameId gameName : String) (w r : Bool)
    (hfresh : assocLookup paths gameId = none) :
    (addNewGame st paths gameId gameName w r).2 = paths ∧
    (∀ confirm ts sst,
      uploadSave (addNewGame st paths gameId gameName w r).2 gameId confirm ts sst =
        (sst, .unconfigured)) ∧
    (∀ confirm ts b sst,
      downloadSave (addNewGame st paths gameId gameName w r).2 gameId confirm ts b sst =
        (sst, .unconfigured)) :=
  ⟨rfl,
   fun confirm ts sst => uploadSave_unconfigured confirm ts sst hfresh,
   fun confirm ts b sst => downloadSave_unconfigured confirm ts b sst hfresh⟩

theorem c10_witness :
    (addNewGame { manifest := some (.json (.obj [("games", .arr [])])),
                  manifestTmp := none, storage := [] }
        [("other-id", "/somewhere")] "fresh-uuid" "Celeste" true true).2 =
      [("other-id", "/somewhere")] ∧
    uploadSave [("other-id", "/somewhere")] "fresh-uuid" true "t"
        { manifest := none, serverSave := .dir [], serverBackup := [],
          localSave := .dir [], localBackupGame := [] } =
      ({ manifest := none, serverSave := .dir [], serverBackup := [],
         localSave := .dir [], localBackupGame := [] }, .unconfigured) := by
  have h := c10_local_path_map_unchanged
    { manifest := some (.json (.obj [("games", .arr [])])),
      manifestTmp := none, storage := [] }
    [("other-id", "/somewhere")] "fresh-uuid" "Celeste" true true (by rfl)
  exact ⟨h.1, h.2.1 true "t" _⟩

/-- Claim C9: load_games_from_json surfaces three distinct outcomes
(lines 347-371): content that is not valid JSON hits the JSONDecodeError
handler (CorruptManifest), a non-object root or a non-list "games" value
hits the TypeError handler (InvalidSchema) — including the spec's example
root with "games" set to the string "not-a-list" — and a missing file's
FileNotFoundError reaches the remaining generic handler (NotFound),
distinct from the other two. -/
theorem c9_load_error_kinds :
    (∀ s, loadGamesFromJson (some (.notJson s)) = .error .corruptManifest) ∧
    (∀ v, jIsObj v = false →
      loadGamesFromJson (some (.json v)) = .error .invalidSchema) ∧
    (∀ fields j, assocLookup fields "games" = some j → jIsArr j = false →
      loadGamesFromJson (some (.json (.obj fields))) = .error .invalidSchema) ∧
    loadGamesFromJson (some (.json (.obj [("games", .str "not-a-list")]))) =
      .error .invalidSchema ∧
    loadGamesFromJson none = .error .notFound ∧
    (LoadErr.corruptManifest ≠ LoadErr.invalidSchema ∧
     LoadErr.corruptManifest ≠ LoadErr.notFound ∧
     LoadErr.invalidSchema ≠ LoadErr.notFound) := by
  refine ⟨fun s => rfl, ?_, ?_, rfl, rfl, by decide, by decide, by decide⟩
  · intro v hv
    cases v with
    | obj fields => simp [jIsObj] at hv
    | null => rfl
    | bool b => rfl
    | num n => rfl
    | str s => rfl
    | arr l => rfl
  · intro fields j hf hj
    cases j with
    | arr l => simp [jIsArr] at hj
    | null => simp [loadGamesFromJson, hf]
    | bool b => simp [loadGamesFromJson, hf]
    | num n => simp [loadGamesFromJson, hf]
    | str s => simp [loadGamesFromJson, hf]
    | obj f2 => simp [loadGamesFromJson, hf]

theorem c9_witness :
    loadGamesFromJson (some (.notJson "oops")) = .error .corruptManifest ∧
    loadGamesFromJson (some (.json (.arr []))) = .error .invalidSchema ∧
    loadGamesFromJson (some (.json (.obj [("games", .null)]))) = .error .invalidSchema := by
  have h := c9_load_error_kinds
  exact ⟨h.1 "oops", h.2.1 (.arr []) rfl, h.2.2.1 [("games", .null)] .null rfl rfl⟩

/-- Claim C3: uploading over a non-empty server save_data first moves the
whole directory to backup/<timestamp> and recreates save_data empty
(lines 616-619), then copies the local tree onto it (line 623); afterwards
the timestamped backup holds exactly the former server content and
save_data holds exactly the local content. -/
theorem c3_upload_backs_up_then_copies (paths : List (String × String))
    (gameId p ts : String) (st : SyncState) (es ls : List (String × FsTree))
    (hp : assocLookup paths gameId = some p) (hp2 : (p == "") = false)
    (hsv : st.serverSave = .dir es) (hne : es.isEmpty = false)
    (hts : assocLookup st.serverBackup ts = none)
    (hls : st.localSave = .dir ls) (hwf : keysNodup ls = true) :
    uploadSave paths gameId true ts st =
      ({ st with serverBackup := st.serverBackup ++ [(ts, .dir es)],
                 serverSave := .dir ls }, .ok) := by
  obtain ⟨m, ssv, sb, lsv, lb⟩ := st
  simp only at hsv hls hts
  subst hsv hls
  simp [uploadSave, hp, hp2, hne, moveTree, hts, copyInto_empty_dir hwf]

theorem c3_witness :
    uploadSave [("g1", "/local/celeste")] "g1" true "ts2"
        { manifest := none,
          serverSave := .dir [("a.txt", .file "x")],
          serverBackup := [],
          localSave := .dir [("a.txt", .file "y")],
          localBackupGame := [] } =
      ({ manifest := none,
         serverSave := .dir [("a.txt", .file "y")],
         serverBackup := [("ts2", .dir [("a.txt", .file "x")])],
         localSave := .dir [("a.txt", .file "y")],
         localBackupGame := [] }, .ok) :=
  c3_upload_backs_up_then_copies [("g1", "/local/celeste")] "g1" "/local/celeste"
    "ts2" _ [("a.txt", .file "x")] [("a.txt", .file "y")]
    rfl rfl rfl rfl rfl rfl rfl

/-- Claim C4: downloading over a non-empty local directory copies the full
local tree into `<local_backup_root>/<game_id>/<timestamp>/` (line 668)
before the clearing step (line 669), then copies the server save_data tree
onto the emptied local directory (line 672); after success the original
local file set is exactly the content of the backup entry, and a fault in
the backup copy aborts before anything local is removed. -/
theorem c4_download_copy_then_clear (paths : List (String × String))
    (gameId p ts : String) (st : SyncState) (ls ss : List (String × FsTree))
    (hp : assocLookup paths gameId = some p) (hp2 : (p == "") = false)
    (hls : st.localSave = .dir ls) (hne : ls.isEmpty = false)
    (hwf : keysNodup ls = true)
    (hts : assocLookup st.localBackupGame ts = none)
    (hsv : st.serverSave = .dir ss) (hwfs : keysNodup ss = true) :
    downloadSave paths gameId true ts true st =
      ({ st with localBackupGame := st.localBackupGame ++ [(ts, .dir ls)],
                 localSave := .dir ss }, .ok) ∧
    downloadSave paths gameId true ts false st =
      ({ st with localBackupGame := st.localBackupGame ++ [(ts, .dir [])] },
       .failed) := by
  obtain ⟨m, ssv, sb, lsv, lb⟩ := st
  simp only at hls hts hsv
  subst hls hsv
  have h1 : assocLookup (lb ++ [(ts, FsTree.dir [])]) ts = some (.dir []) := by
    rw [assocLookup_append_of_none _ hts, assocLookup_singleton_self]
  have h2 : assocSet (lb ++ [(ts, FsTree.dir [])]) ts (FsTree.dir ls) =
      lb ++ [(ts, FsTree.dir ls)] := assocSet_append_fresh _ _ hts
  constructor
  · simp [downloadSave, hp, hp2, mkdirBackup, hts, hne, h1,
          copyInto_empty_dir hwf, copyInto_empty_dir hwfs, h2]
  · simp [downloadSave, hp, hp2, mkdirBackup, hts, hne]

theorem c4_witness :
    downloadSave [("g1", "/local/celeste")] "g1" true "ts1" true
        { manifest := none,
          serverSave := .dir [("a.txt", .file "srv")],
          serverBackup := [],
          localSave := .dir [("a.txt", .file "loc"), ("sub", .dir [])],
          localBackupGame := [] } =
      ({ manifest := none,
         serverSave := .dir [("a.txt", .file "srv")],
         serverBackup := [],
         localSave := .dir [("a.txt", .file "srv")],
         localBackupGame :=
           [("ts1", .dir [("a.txt", .file "loc"), ("sub", .dir [])])] }, .ok) ∧
    (downloadSave [("g1", "/local/celeste")] "g1" true "ts1" false
        { manifest := none,
          serverSave := .dir [("a.txt", .file "srv")],
          serverBackup := [],
          localSave := .dir [("a.txt", .file "loc"), ("sub", .dir [])],
          localBackupGame := [] }).1.localSave =
      .dir [("a.txt", .file "loc"), ("sub", .dir [])] := by
  have h := c4_download_copy_then_clear [("g1", "/local/celeste")] "g1"
    "/local/celeste" "ts1"
    { manifest := none,
      serverSave := .dir [("a.txt", .file "srv")],
      serverBackup := [],
      localSave := .dir [("a.txt", .file "loc"), ("sub", .dir [])],
      localBackupGame := [] }
    [("a.txt", .file "loc"), ("sub", .dir [])]
    [("a.txt", .file "srv")] rfl rfl rfl rfl rfl rfl rfl rfl
  exact ⟨h.1, by rw [h.2]⟩

/-- Claim C5 — counterexample.  The claim says an empty-source backup step
creates no backup artifact of any kind, in particular no empty timestamped
folder under the local backup root.  But download_save runs
`backup_dest.mkdir(parents=True, exist_ok=True)` (line 663) before the
`any(local_path.iterdir())` emptiness check (line 666): downloading a game
whose local directory is empty still creates the empty timestamped
directory under `<local_backup_root>/<game_id>/`.  Concretely, from a state
with an empty local directory and no local backups, the download succeeds
and leaves exactly one (empty) timestamped backup folder. -/
theorem c5_counterexample :
    (downloadSave [("g1", "/local/p")] "g1" true "2024-01-01_00-00-00" true
        { manifest := none, serverSave := .dir [], serverBackup := [],
          localSave := .dir [], localBackupGame := [] }).1.localBackupGame =
      [("2024-01-01_00-00-00", FsTree.dir [])] ∧
    (downloadSave [("g1", "/local/p")] "g1" true "2024-01-01_00-00-00" true
        { manifest := none, serverSave := .dir [], serverBackup := [],
          localSave := .dir [], localBackupGame := [] }).2 = .ok := by
  constructor <;>
    simp [downloadSave, mkdirBackup, copyInto, copyEntries, assocLookup]

/-- Claim C5 — amended.  For uploads the claim holds: an empty server
save_data skips the move entirely (line 616) and the server backup
directory gains nothing.  For downloads the timestamped directory under the
local backup root is created unconditionally before the emptiness check, so
a download with an empty local directory still creates that empty folder,
though no file content is ever copied into it. -/
theorem c5_empty_source_amended (paths : List (String × String))
    (gameId p ts : String) (stU stD : SyncState)
    (ls ss : List (String × FsTree))
    (hp : assocLookup paths gameId = some p) (hp2 : (p == "") = false)
    (hsvU : stU.serverSave = .dir []) (hlocU : stU.localSave = .dir ls)
    (hwfU : keysNodup ls = true)
    (hlocD : stD.localSave = .dir [])
    (htsD : assocLookup stD.localBackupGame ts = none)
    (hsvD : stD.serverSave = .dir ss) (hwfD : keysNodup ss = true) :
    uploadSave paths gameId true ts stU = ({ stU with serverSave := .dir ls }, .ok) ∧
    downloadSave paths gameId true ts true stD =
      ({ stD with localBackupGame := stD.localBackupGame ++ [(ts, .dir [])],
                  localSave := .dir ss }, .ok) := by
  constructor
  · obtain ⟨m, ssv, sb, lsv, lb⟩ := stU
    simp only at hsvU hlocU
    subst hsvU hlocU
    simp [uploadSave, hp, hp2, copyInto_empty_dir hwfU]
  · obtain ⟨m, ssv, sb, lsv, lb⟩ := stD
    simp only at hlocD htsD hsvD
    subst hlocD hsvD
    simp [downloadSave, hp, hp2, mkdirBackup, htsD, copyInto_empty_dir hwfD]

theorem c5_witness :
    uploadSave [("g1", "/local/p")] "g1" true "ts0"
        { manifest := none, serverSave := .dir [], serverBackup := [],
          localSave := .dir [("a.txt", .file "x")], localBackupGame := [] } =
      ({ manifest := none, serverSave := .dir [("a.txt", .file "x")],
         serverBackup := [], localSave := .dir [("a.txt", .file "x")],
         localBackupGame := [] }, .ok) ∧
    downloadSave [("g1", "/local/p")] "g1" true "ts0" true
        { manifest := none, serverSave := .dir [("a.txt", .file "s")],
          serverBackup := [], localSave := .dir [], localBackupGame := [] } =
      ({ manifest := none, serverSave := .dir [("a.txt", .file "s")],
         serverBackup := [], localSave := .dir [("a.txt", .file "s")],
         localBackupGame := [("ts0", .dir [])] }, .ok) := by
  have h := c5_empty_source_amended [("g1", "/local/p")] "g1" "/local/p" "ts0"
    { manifest := none, serverSave := .dir [], serverBackup := [],
      localSave := .dir [("a.txt", .file "x")], localBackupGame := [] }
    { manifest := none, serverSave := .dir [("a.txt", .file "s")],
      serverBackup := [], localSave := .dir [], localBackupGame := [] }
    [("a.txt", .file "x")] [("a.txt", .file "s")]
    rfl rfl rfl rfl rfl rfl rfl rfl rfl
  exact h

/-- Claim C1: add_new_game's manifest update (lines 510-533) writes the full
serialized catalog to games.json.tmp — `with_suffix(".json.tmp")` keeps it
beside games.json — and then renames it over games.json with os.rename.
With no fault, registration succeeds and loading afterwards returns exactly
the catalog that was saved (given that the pre-existing records are
well-formed, as the data model requires, so the loader's per-entry filter
keeps them all).  With a fault injected after the temp write and before the
rename (and in every other failing path), games.json still holds its
original, unchanged content, while the temporary file demonstrably already
held the full new catalog. -/
theorem c1_atomic_manifest_save (st : ServerState) (fs : List (String × Json))
    (l : List Json) (names : List String) (gameId gameName : String)
    (hman : st.manifest = some (.json (.obj fs)))
    (hgames : assocLookup fs "games" = some (.arr l))
    (hnames : gameNamesLower l = .ok names)
    (hnc : names.contains (strLower gameName) = false)
    (hwf : ∀ g ∈ l, keepGame g = some g)
    (hid : (gameId == "") = false) (hnm : (gameName == "") = false) :
    ((registerGame st gameId gameName true true).2 = .ok ∧
     loadGamesFromJson (registerGame st gameId gameName true true).1.manifest =
       .ok (l ++ [newGameRecord gameId gameName])) ∧
    (∀ w, (registerGame st gameId gameName w false).1.manifest = st.manifest ∧
          (registerGame st gameId gameName w false).2 ≠ .ok) ∧
    (registerGame st gameId gameName true false).1.manifestTmp =
      some (.json (.obj (assocSet fs "games"
        (.arr (l ++ [newGameRecord gameId gameName]))))) := by
  have hsucc := registerGame_success_eq st fs l names gameId gameName
    hman hgames hnames hnc
  refine ⟨⟨by rw [hsucc], ?_⟩, ?_, ?_⟩
  · rw [hsucc]
    simp only [loadGamesFromJson, assocLookup_assocSet_self]
    rw [List.filterMap_append, filterMap_keepGame_id hwf]
    simp [keepGame_newGameRecord hid hnm]
  · intro w
    refine ⟨(registerGame_error_state st gameId gameName w false
      (registerGame_rename_fault_not_ok st gameId gameName w)).2,
      registerGame_rename_fault_not_ok st gameId gameName w⟩
  · have hmem : strLower gameName ∉ names := by simpa using hnc
    obtain ⟨m, mt, stg⟩ := st
    simp only at hman
    subst hman
    unfold registerGame
    simp [existingNames, hgames, iterElems, hnames, hmem, appendGame, rollbackDirs]

theorem c1_witness :
    loadGamesFromJson (registerGame
        { manifest := some (.json (.obj [("games", .arr [])])),
          manifestTmp := none, storage := [] } "i1" "Alpha" true true).1.manifest =
      .ok [newGameRecord "i1" "Alpha"] ∧
    (registerGame
        { manifest := some (.json (.obj [("games", .arr [])])),
          manifestTmp := none, storage := [] } "i1" "Alpha" true false).1.manifest =
      some (.json (.obj [("games", .arr [])])) := by
  have h := c1_atomic_manifest_save
    { manifest := some (.json (.obj [("games", .arr [])])),
      manifestTmp := none, storage := [] }
    [("games", .arr [])] [] [] "i1" "Alpha" rfl rfl rfl rfl
    (by intro g hg; cases hg) rfl rfl
  exact ⟨by simpa using h.1.2, (h.2.1 true).1⟩

/-- A detected case-insensitive duplicate makes registration return the
DuplicateName warning, rolling back the directories and touching nothing
else. -/
theorem registerGame_dup_eq (st : ServerState) (fs : List (String × Json))
    (l : List Json) (names : List String) (gameId gameName : String) (w r : Bool)
    (hman : st.manifest = some (.json (.obj fs)))
    (hgames : assocLookup fs "games" = some (.arr l))
    (hnames : gameNamesLower l = .ok names)
    (hnc : names.contains (strLower gameName) = true) :
    registerGame st gameId gameName w r =
      (rollbackDirs { st with storage := storageMkdirs st.storage gameId } gameId,
       .duplicateName) := by
  have hmem : strLower gameName ∈ names := by simpa using hnc
  obtain ⟨m, mt, stg⟩ := st
  simp only at hman
  subst hman
  unfold registerGame
  simp [existingNames, hgames, iterElems, hnames, hmem]

/-- Claim C2: registration is all-or-nothing.  Every failing path of
add_new_game removes the server directories it created (lines 522, 539)
and leaves games.json — hence the catalog — unchanged; and registering the
same name twice succeeds once, yields DuplicateName on the second call
(line 519), and leaves the catalog with exactly one record of that name
under case-insensitive comparison. -/
theorem c2_registration_all_or_nothing (st : ServerState)
    (fs : List (String × Json)) (l : List Json) (names : List String)
    (id1 id2 gameName : String) (w r : Bool)
    (hman : st.manifest = some (.json (.obj fs)))
    (hgames : assocLookup fs "games" = some (.arr l))
    (hnames : gameNamesLower l = .ok names)
    (hnc : names.contains (strLower gameName) = false) :
    (∀ st0 gid gn w0 r0, (registerGame st0 gid gn w0 r0).2 ≠ RegisterResult.ok →
        assocLookup (registerGame st0 gid gn w0 r0).1.storage gid = none ∧
        (registerGame st0 gid gn w0 r0).1.manifest = st0.manifest) ∧
    ((registerGame st id1 gameName true true).2 = .ok ∧
     (registerGame (registerGame st id1 gameName true true).1 id2 gameName w r).2 =
       .duplicateName ∧
     countNameCI ((manifestGamesList
        (registerGame (registerGame st id1 gameName true true).1
          id2 gameName w r).1).getD []) gameName = 1) := by
  have hsucc := registerGame_success_eq st fs l names id1 gameName
    hman hgames hnames hnc
  have hone : gameNamesLower [newGameRecord id1 gameName] =
      .ok [strLower gameName] := rfl
  have hnames2 : gameNamesLower (l ++ [newGameRecord id1 gameName]) =
      .ok (names ++ [strLower gameName]) := gameNamesLower_append hnames hone
  have hnc2 : (names ++ [strLower gameName]).contains (strLower gameName) = true := by
    simp
  have hman1 : (registerGame st id1 gameName true true).1.manifest =
      some (.json (.obj (assocSet fs "games"
        (.arr (l ++ [newGameRecord id1 gameName]))))) := by rw [hsucc]
  have hgames1 : assocLookup (assocSet fs "games"
      (.arr (l ++ [newGameRecord id1 gameName]))) "games" =
      some (.arr (l ++ [newGameRecord id1 gameName])) :=
    assocLookup_assocSet_self fs "games" _
  have hdup := registerGame_dup_eq (registerGame st id1 gameName true true).1
    (assocSet fs "games" (.arr (l ++ [newGameRecord id1 gameName])))
    (l ++ [newGameRecord id1 gameName]) (names ++ [strLower gameName])
    id2 gameName w r hman1 hgames1 hnames2 hnc2
  refine ⟨fun st0 gid gn w0 r0 h => registerGame_error_state st0 gid gn w0 r0 h,
    by rw [hsucc], by rw [hdup], ?_⟩
  have hman2 : (registerGame (registerGame st id1 gameName true true).1
      id2 gameName w r).1.manifest =
      some (.json (.obj (assocSet fs "games"
        (.arr (l ++ [newGameRecord id1 gameName]))))) := by
    rw [hdup]
    simpa [rollbackDirs] using hman1
  have hgl : manifestGamesList (registerGame (registerGame st id1 gameName true true).1
      id2 gameName w r).1 = some (l ++ [newGameRecord id1 gameName]) := by
    simp [manifestGamesList, hman2, hgames1]
  rw [hgl]
  simp only [Option.getD_some]
  rw [countNameCI_append, countNameCI_zero hnames hnc]
  simp [countNameCI, newGameRecord, jGet, assocLookup]

theorem c2_witness :
    (registerGame
        { manifest := some (.json (.obj [("games", .arr [])])),
          manifestTmp := none, storage := [] } "i1" "Celeste" true true).2 = .ok ∧
    (registerGame (registerGame
        { manifest := some (.json (.obj [("games", .arr [])])),
          manifestTmp := none, storage := [] } "i1" "Celeste" true true).1
      "i2" "Celeste" true true).2 = .duplicateName ∧
    countNameCI ((manifestGamesList (registerGame (registerGame
        { manifest := some (.json (.obj [("games", .arr [])])),
          manifestTmp := none, storage := [] } "i1" "Celeste" true true).1
      "i2" "Celeste" true true).1).getD []) "Celeste" = 1 :=
  (c2_registration_all_or_nothing
    { manifest := some (.json (.obj [("games", .arr [])])),
      manifestTmp := none, storage := [] }
    [("games", .arr [])] [] [] "i1" "i2" "Celeste" true true
    rfl rfl rfl rfl).2

/-- Claim C6: starting from a catalog satisfying the uniqueness invariant —
no two records share an id and no two share a case-insensitively compared
name — any catalog registerGame leaves behind (the appended one on success,
the unchanged one on any failure) still satisfies it, given that the
freshly generated uuid id does not occur in the catalog. -/
theorem c6_uniqueness_invariant (st : ServerState) (fs : List (String × Json))
    (l : List Json) (gameId gameName : String)
    (hman : st.manifest = some (.json (.obj fs)))
    (hgames : assocLookup fs "games" = some (.arr l))
    (hinv : catalogInvariant l)
    (hfresh : ∀ g ∈ l, jGet g "id" ≠ some (.str gameId)) :
    ∀ w r gs', manifestGamesList (registerGame st gameId gameName w r).1 = some gs' →
      catalogInvariant gs' := by
  intro w r gs' hgs
  by_cases hok : (registerGame st gameId gameName w r).2 = RegisterResult.ok
  · obtain ⟨names, hN, hc, hm⟩ :=
      registerGame_ok_inv st fs l gameId gameName w r hman hgames hok
    have hmem : strLower gameName ∉ names := by simpa using hc
    have hgl : manifestGamesList (registerGame st gameId gameName w r).1 =
        some (l ++ [newGameRecord gameId gameName]) := by
      simp [manifestGamesList, hm, assocLookup_assocSet_self]
    rw [hgl] at hgs
    injection hgs with hgs2
    subst hgs2
    unfold catalogInvariant
    rw [List.pairwise_append]
    refine ⟨hinv, List.pairwise_singleton _ _, ?_⟩
    intro a ha b hb
    have hb2 : b = newGameRecord gameId gameName := by simpa using hb
    subst hb2
    constructor
    · rintro ⟨v, hva, hvb⟩
      have hvb2 : some (Json.str gameId) = some v := by rw [← hvb]; rfl
      injection hvb2 with hv
      subst hv
      exact hfresh a ha hva
    · rintro ⟨sa, sb, hsa, hsb, he⟩
      have hsb2 : some (Json.str gameName) = some (Json.str sb) := by
        rw [← hsb]; rfl
      injection hsb2 with hsb3
      injection hsb3 with hsb4
      subst hsb4
      exact hmem (he ▸ strLower_mem_names hN ha hsa)
  · have hm := (registerGame_error_state st gameId gameName w r hok).2
    have hgl : manifestGamesList (registerGame st gameId gameName w r).1 =
        some l := by
      simp [manifestGamesList, hm, hman, hgames]
    rw [hgl] at hgs
    injection hgs with hgs2
    subst hgs2
    exact hinv

theorem c6_witness : catalogInvariant [newGameRecord "i1" "Alpha"] :=
  c6_uniqueness_invariant
    { manifest := some (.json (.obj [("games", .arr [])])),
      manifestTmp := none, storage := [] }
    [("games", .arr [])] [] "i1" "Alpha" rfl rfl List.Pairwise.nil
    (by intro g hg; cases hg) true true [newGameRecord "i1" "Alpha"] rfl

theorem keepGame_eq_some {g g' : Json} (h : keepGame g = some g') : g' = g := by
  cases g with
  | obj f =>
    simp only [keepGame] at h
    split at h
    · injection h with h2
      exact h2.symm
    · cases h
  | null => simp [keepGame] at h
  | bool b => simp [keepGame] at h
  | num n => simp [keepGame] at h
  | str s => simp [keepGame] at h
  | arr l => simp [keepGame] at h

theorem filterMap_keepGame_sublist (l : List Json) :
    (l.filterMap keepGame).Sublist l := by
  induction l with
  | nil => simp
  | cons g tl ih =>
    rw [List.filterMap_cons]
    cases hg : keepGame g with
    | none => exact ih.cons g
    | some g2 =>
      have h2 : g2 = g := keepGame_eq_some hg
      subst h2
      exact ih.cons₂ g2

theorem keepGame_none_of_missing {g : Json}
    (h : jGet g "id" = none ∨ jGet g "name" = none) : keepGame g = none := by
  cases g with
  | obj f =>
    rcases h with h | h <;> simp [keepGame, h, truthy]
  | null => rfl
  | bool b => rfl
  | num n => rfl
  | str s => rfl
  | arr l => rfl

/-- A games entry on which the name extraction raises aborts the whole
duplicate check, and the enclosing handler reports the generic manifest
error. -/
theorem registerGame_names_error (st : ServerState) (fs : List (String × Json))
    (l : List Json) (gameId gameName : String) (w r : Bool)
    (hman : st.manifest = some (.json (.obj fs)))
    (hgames : assocLookup fs "games" = some (.arr l))
    (hN : gameNamesLower l = .error ()) :
    (registerGame st gameId gameName w r).2 = RegisterResult.manifestError := by
  obtain ⟨m, mt, stg⟩ := st
  simp only at hman
  subst hman
  unfold registerGame
  simp [existingNames, hgames, iterElems, hN]

/-- Claim C7 — counterexample.  The claim says every consumer of the
manifest skips entries missing id or name, in particular that the
registrar's duplicate-name check skips them instead of failing the
registration.  But line 518 evaluates `g['name'].lower()` for every entry:
an entry with an id and no name raises KeyError inside the comprehension,
the generic handler of line 535 catches it, and the registration fails
(with rollback) instead of skipping the entry.  Concretely, registering a
fresh name against a manifest whose only entry is missing "name" returns
the generic manifest error rather than succeeding. -/
theorem c7_counterexample :
    (registerGame
        { manifest := some (.json (.obj [("games",
            .arr [.obj [("id", .str "g1")]])])),
          manifestTmp := none, storage := [] }
        "g2" "Celeste" true true).2 = RegisterResult.manifestError := rfl

/-- Claim C7 — amended.  Loading skips entries missing id or name (they are
omitted and the remaining entries come back in order), and the registrar's
duplicate-name check tolerates entries missing only the id; but an entry
without a string name makes the duplicate check raise, failing the whole
registration with the generic manifest error instead of being skipped. -/
theorem c7_malformed_entries_amended :
    (∀ fields (l gs : List Json), assocLookup fields "games" = some (.arr l) →
      loadGamesFromJson (some (.json (.obj fields))) = .ok gs →
      gs.Sublist l ∧
      (∀ g ∈ l, jGet g "id" = none ∨ jGet g "name" = none → g ∉ gs)) ∧
    (∀ st fs (l : List Json) names gameId gameName,
      st.manifest = some (.json (.obj fs)) →
      assocLookup fs "games" = some (.arr l) →
      gameNamesLower l = .ok names →
      names.contains (strLower gameName) = false →
      (registerGame st gameId gameName true true).2 = RegisterResult.ok) ∧
    (∀ st fs (l : List Json) g0 gameId gameName w r,
      st.manifest = some (.json (.obj fs)) →
      assocLookup fs "games" = some (.arr l) →
      g0 ∈ l → gameNameLower g0 = .error () →
      (registerGame st gameId gameName w r).2 = RegisterResult.manifestError) := by
  refine ⟨?_, ?_, ?_⟩
  · intro fields l gs hf hload
    have hgs : gs = l.filterMap keepGame := by
      simp only [loadGamesFromJson, hf] at hload
      injection hload with h2
      exact h2.symm
    subst hgs
    refine ⟨filterMap_keepGame_sublist l, ?_⟩
    intro g hg hmiss hmem
    rcases List.mem_filterMap.mp hmem with ⟨a, _, ha2⟩
    have : g = a := keepGame_eq_some ha2
    subst this
    rw [keepGame_none_of_missing hmiss] at ha2
    cases ha2
  · intro st fs l names gameId gameName hman hgames hnames hnc
    rw [registerGame_success_eq st fs l names gameId gameName hman hgames hnames hnc]
  · intro st fs l g0 gameId gameName w r hman hgames hg0 herr
    exact registerGame_names_error st fs l gameId gameName w r hman hgames
      (gameNamesLower_error_of_mem hg0 herr)

theorem c7_witness :
    ([newGameRecord "a" "Alpha"]).Sublist
      [newGameRecord "a" "Alpha", Json.obj [("id", Json.str "b")]] ∧
    (Json.obj [("id", Json.str "b")]) ∉ [newGameRecord "a" "Alpha"] ∧
    (registerGame
        { manifest := some (.json (.obj [("games",
            .arr [.obj [("name", .str "Xyz")]])])),
          manifestTmp := none, storage := [] } "i9" "Alpha" true true).2 =
      RegisterResult.ok ∧
    (registerGame
        { manifest := some (.json (.obj [("games",
            .arr [.obj [("id", .str "g7")]])])),
          manifestTmp := none, storage := [] } "i9" "Alpha" true true).2 =
      RegisterResult.manifestError := by
  have h := c7_malformed_entries_amended
  have ha := h.1 [("games", .arr [newGameRecord "a" "Alpha",
      Json.obj [("id", Json.str "b")]])]
    [newGameRecord "a" "Alpha", Json.obj [("id", Json.str "b")]]
    [newGameRecord "a" "Alpha"] rfl rfl
  refine ⟨ha.1, ha.2 _ (by simp) (Or.inr rfl), ?_, ?_⟩
  · exact h.2.1 _ [("games", .arr [.obj [("name", .str "Xyz")]])]
      [.obj [("name", .str "Xyz")]] [strLower "Xyz"] "i9" "Alpha"
      rfl rfl rfl (by decide)
  · exact h.2.2 _ [("games", .arr [.obj [("id", .str "g7")]])]
      [.obj [("id", .str "g7")]] (.obj [("id", .str "g7")]) "i9" "Alpha"
      true true rfl rfl (by simp) rfl
